import Mathlib

/-!
# Verification of the `target.js` core against its specification

This file gives a shallow embedding, in Lean 4, of the core of the
`target.js` client-side component framework:

* `src/core/Target.js` — the `Target` base class (lifecycle driver,
  state management, HTML escaping, template substitution, dataset
  coercion, random hash generation), and
* `src/core/StyleManager.js` — the per-component style registry.

Modelling conventions, applied uniformly:

* JavaScript strings are `String` / `List Char`; the scanning loops of
  `String.prototype.replace` with a global regex are rendered as
  fuel-indexed structural scanners (`fuel` starts at the input length,
  which is an upper bound on the number of scanning steps, so the fuel
  never runs out on the entry points; this keeps every definition
  kernel-computable).  Each scanner advances one character on a failed
  match and past the whole match on success, exactly as the JS regex
  engine does for the (backtracking-free) patterns appearing in the
  source.
* JavaScript numbers are modelled exactly, as decimal pairs
  `mant × 10 ^ exp` over `Int` (`JSNum.dec`) plus the two infinities.
  Every number produced by the source's numeric paths
  (`Number(string)` coercion, JSON literals) is an exact decimal, so no
  IEEE-754 rounding is observable for those values; `NaN` is
  represented by `Option.none` at the coercion sites that test for it.
* JavaScript objects reachable from the claims are finite association
  lists in insertion order.  Object literal lookup is list lookup; the
  prototype chain of `Object.prototype` is not modelled (no claim
  exercises property names such as `"constructor"`).
* The DOM is explicit state: the document head is a list of
  style/link nodes, the component's container is its `innerHTML`
  string.  A thrown JavaScript `TypeError` is an `err` field on the
  operation's result, recorded together with the mutations that
  happened before the throw.
* The lifecycle hook methods of the `Target` base class only log (the
  `config.logger && config.dev` console output is not part of the
  observable state), so hook invocations are modelled as an emitted
  event trace, and `render()` — overridden by subclasses — is an
  explicit function parameter.
-/

namespace TargetJS

/-! ## Named constants for frequently used characters -/

/-- The double-quote character `"`. -/
def quoteChar : Char := Char.ofNat 34

/-- The apostrophe character. -/
def aposChar : Char := Char.ofNat 39

/-- The opening brace character. -/
def openBraceChar : Char := Char.ofNat 123

/-- The closing brace character. -/
def closeBraceChar : Char := Char.ofNat 125

/-! ## Character classes -/

/-- ASCII decimal digit. -/
def isDigitChar (c : Char) : Bool := '0' ≤ c && c ≤ '9'

/-- ASCII letter, the regex class `[a-zA-Z]`. -/
def isAsciiLetter (c : Char) : Bool :=
  ('a' ≤ c && c ≤ 'z') || ('A' ≤ c && c ≤ 'Z')

/-- The regex word class `\w` = `[A-Za-z0-9_]`. -/
def isWordChar (c : Char) : Bool :=
  isAsciiLetter c || isDigitChar c || c = '_'

/-- ASCII hexadecimal digit. -/
def isHexDigit (c : Char) : Bool :=
  isDigitChar c || ('a' ≤ c && c ≤ 'f') || ('A' ≤ c && c ≤ 'F')

/-- Numeric value of a hexadecimal digit (0 for non-digits). -/
def hexVal (c : Char) : Nat :=
  if isDigitChar c then c.toNat - '0'.toNat
  else if 'a' ≤ c && c ≤ 'f' then c.toNat - 'a'.toNat + 10
  else if 'A' ≤ c && c ≤ 'F' then c.toNat - 'A'.toNat + 10
  else 0

/-- JavaScript whitespace (the regex class `\s`, also the set trimmed by
`String.prototype.trim` and by string-to-number coercion): space, tab,
line feed, vertical tab, form feed, carriage return, NBSP, the Unicode
space separators, the line separators, and the BOM. -/
def isJsWhitespace (c : Char) : Bool :=
  let n := c.toNat
  n = 32 || n = 9 || n = 10 || n = 11 || n = 12 || n = 13 ||
  n = 160 || n = 5760 || (8192 ≤ n && n ≤ 8202) || n = 8232 ||
  n = 8233 || n = 8239 || n = 8287 || n = 12288 || n = 65279

/-- Base-36 digit in lowercase, the alphabet of
`Number.prototype.toString(36)`. -/
def isBase36 (c : Char) : Bool :=
  isDigitChar c || ('a' ≤ c && c ≤ 'z')

/-- Trim JavaScript whitespace from both ends of a character list. -/
def trimJsWs (cs : List Char) : List Char :=
  ((cs.dropWhile isJsWhitespace).reverse.dropWhile isJsWhitespace).reverse

/-! ## JavaScript numbers

JavaScript numbers are IEEE-754 doubles.  All number values reachable
through the claims are exact decimals (results of `Number(string)` and
JSON numeric literals), modelled exactly as `mant × 10 ^ exp`.  `NaN`
is represented as `none` where it can arise. -/

/-- A JavaScript number value: an exact decimal or an infinity. -/
inductive JSNum
  | dec (mant : Int) (exp : Int)
  | posInf
  | negInf
  deriving DecidableEq, Repr

/-- Negation of a JavaScript number (for a leading `-` sign). -/
def JSNum.neg : JSNum → JSNum
  | .dec m e => .dec (-m) e
  | .posInf => .negInf
  | .negInf => .posInf

/-- Interpret a digit list in the given base. -/
def digitsToNat (base : Nat) (ds : List Char) : Nat :=
  ds.foldl (fun a c => a * base + hexVal c) 0

/-- The exponent part of a decimal literal: the characters after `e`/`E`
(all of which must be consumed). `none` means the literal is malformed,
hence `NaN`. -/
def expValue (cs : List Char) : Option Int :=
  match cs with
  | [] => none
  | '+' :: ds => if ds ≠ [] && ds.all isDigitChar then some (digitsToNat 10 ds) else none
  | '-' :: ds => if ds ≠ [] && ds.all isDigitChar then some (-(digitsToNat 10 ds : Int)) else none
  | ds => if ds.all isDigitChar then some (digitsToNat 10 ds) else none

/-- An unsigned decimal literal `digits [. digits] [exp]` or
`. digits [exp]` (ECMA `StrUnsignedDecimalLiteral` without `Infinity`),
as an exact decimal pair.  `none` means `NaN`. -/
def parseUnsignedDec (cs : List Char) : Option JSNum :=
  let ip := cs.takeWhile isDigitChar
  let r1 := cs.dropWhile isDigitChar
  match r1 with
  | [] => if ip = [] then none else some (.dec (digitsToNat 10 ip) 0)
  | '.' :: r2 =>
    let fp := r2.takeWhile isDigitChar
    let r3 := r2.dropWhile isDigitChar
    if ip = [] && fp = [] then none
    else
      let mant : Int := digitsToNat 10 (ip ++ fp)
      match r3 with
      | [] => some (.dec mant (-(fp.length : Int)))
      | 'e' :: es => (expValue es).map fun e => .dec mant (e - fp.length)
      | 'E' :: es => (expValue es).map fun e => .dec mant (e - fp.length)
      | _ => none
  | 'e' :: es =>
    if ip = [] then none
    else (expValue es).map fun e => .dec (digitsToNat 10 ip) e
  | 'E' :: es =>
    if ip = [] then none
    else (expValue es).map fun e => .dec (digitsToNat 10 ip) e
  | _ => none

/-- Unsigned part of string-to-number coercion: `Infinity` or an
unsigned decimal literal. -/
def parseUnsignedNum (cs : List Char) : Option JSNum :=
  if cs = "Infinity".toList then some .posInf else parseUnsignedDec cs

/-- ECMA `StringToNumber`, the coercion performed by `Number(s)` and by
`isNaN(s)` on a string argument: trim whitespace; empty means `0`;
`0x`/`0o`/`0b` radix literals (no sign allowed); otherwise an optional
sign followed by `Infinity` or a decimal literal.  `none` is `NaN`. -/
def jsStringToNumber (s : String) : Option JSNum :=
  match trimJsWs s.toList with
  | [] => some (.dec 0 0)
  | '0' :: 'x' :: ds =>
    if ds ≠ [] && ds.all isHexDigit then some (.dec (digitsToNat 16 ds) 0) else none
  | '0' :: 'X' :: ds =>
    if ds ≠ [] && ds.all isHexDigit then some (.dec (digitsToNat 16 ds) 0) else none
  | '0' :: 'o' :: ds =>
    if ds ≠ [] && ds.all (fun c => '0' ≤ c && c ≤ '7') then some (.dec (digitsToNat 8 ds) 0) else none
  | '0' :: 'O' :: ds =>
    if ds ≠ [] && ds.all (fun c => '0' ≤ c && c ≤ '7') then some (.dec (digitsToNat 8 ds) 0) else none
  | '0' :: 'b' :: ds =>
    if ds ≠ [] && ds.all (fun c => c = '0' || c = '1') then some (.dec (digitsToNat 2 ds) 0) else none
  | '0' :: 'B' :: ds =>
    if ds ≠ [] && ds.all (fun c => c = '0' || c = '1') then some (.dec (digitsToNat 2 ds) 0) else none
  | '+' :: rest => parseUnsignedNum rest
  | '-' :: rest => (parseUnsignedNum rest).map JSNum.neg
  | rest => parseUnsignedNum rest

/-! ## JavaScript values

The values flowing through the claims: strings, numbers, booleans,
`null`, `undefined`, and JSON-shaped objects/arrays (insertion-ordered
association lists).  The prototype chain is not modelled. -/

/-- A JavaScript value. -/
inductive JSValue
  | str : String → JSValue
  | num : JSNum → JSValue
  | bool : Bool → JSValue
  | null : JSValue
  | undefined : JSValue
  | obj : List (String × JSValue) → JSValue
  | arr : List JSValue → JSValue

/-! ## `JSON.parse`

A faithful model of the JSON grammar accepted by `JSON.parse` (used by
`Target.dataToObject` for brace-wrapped dataset values): values,
objects, arrays, strings with escapes, numbers without leading zeros,
the literals `true`/`false`/`null`; `none` models the thrown
`SyntaxError`.  Recursion is fuelled; each parsing step consumes at
least one input character per two fuel units, so the entry point's
fuel `2·|s| + 2` never runs out on any input. -/

/-- JSON insignificant whitespace. -/
def isJsonWs (c : Char) : Bool := c = ' ' || c = '\t' || c = '\n' || c = '\r'

/-- Body of a JSON string after the opening quote: returns the decoded
content and the input after the closing quote. -/
def jsonStrBody : List Char → Option (String × List Char)
  | [] => none
  | '\\' :: 'u' :: h1 :: h2 :: h3 :: h4 :: rest =>
    if isHexDigit h1 && isHexDigit h2 && isHexDigit h3 && isHexDigit h4 then
      (jsonStrBody rest).map fun p =>
        (String.singleton (Char.ofNat (((hexVal h1 * 16 + hexVal h2) * 16 + hexVal h3) * 16 + hexVal h4)) ++ p.1, p.2)
    else none
  | '\\' :: e :: rest =>
    let dc : Option Char :=
      if e = quoteChar then some quoteChar
      else if e = '\\' then some '\\'
      else if e = '/' then some '/'
      else if e = 'b' then some (Char.ofNat 8)
      else if e = 'f' then some (Char.ofNat 12)
      else if e = 'n' then some '\n'
      else if e = 'r' then some '\r'
      else if e = 't' then some '\t'
      else none
    match dc with
    | some c => (jsonStrBody rest).map fun p => (String.singleton c ++ p.1, p.2)
    | none => none
  | c :: rest =>
    if c = quoteChar then some ("", rest)
    else if c.toNat < 32 then none
    else (jsonStrBody rest).map fun p => (String.singleton c ++ p.1, p.2)

/-- Exponent of a JSON number, after the `e`/`E`: optional sign then at
least one digit. -/
def jsonExp (cs : List Char) : Option Int × List Char :=
  let (negE, cs1) : Bool × List Char :=
    match cs with
    | '+' :: r => (false, r)
    | '-' :: r => (true, r)
    | _ => (false, cs)
  let ds := cs1.takeWhile isDigitChar
  if ds = [] then (none, cs1)
  else ((some (if negE then -(digitsToNat 10 ds : Int) else digitsToNat 10 ds)), cs1.dropWhile isDigitChar)

/-- A JSON number literal at the head of the input. -/
def jsonNum (cs : List Char) : Option (JSNum × List Char) :=
  let (neg, cs1) : Bool × List Char := match cs with | '-' :: r => (true, r) | _ => (false, cs)
  let ip := cs1.takeWhile isDigitChar
  let r1 := cs1.dropWhile isDigitChar
  if ip = [] then none
  else if ip.head? = some '0' && ip.length > 1 then none
  else
    let (fp, r2) : List Char × List Char :=
      match r1 with
      | '.' :: rf => (rf.takeWhile isDigitChar, rf.dropWhile isDigitChar)
      | _ => ([], r1)
    if r1.head? = some '.' && fp = [] then none
    else
      let (ex, r3) : Option Int × List Char :=
        match r2 with
        | 'e' :: re => jsonExp re
        | 'E' :: re => jsonExp re
        | _ => (some 0, r2)
      match ex with
      | none => none
      | some e =>
        let mant : Int := digitsToNat 10 (ip ++ fp)
        some (.dec (if neg then -mant else mant) (e - fp.length), r3)

mutual

/-- A JSON value at the head of the input (after skipping whitespace). -/
def jsonVal : Nat → List Char → Option (JSValue × List Char)
  | 0, _ => none
  | f + 1, cs =>
    match cs.dropWhile isJsonWs with
    | 't' :: 'r' :: 'u' :: 'e' :: r => some (.bool true, r)
    | 'f' :: 'a' :: 'l' :: 's' :: 'e' :: r => some (.bool false, r)
    | 'n' :: 'u' :: 'l' :: 'l' :: r => some (.null, r)
    | c :: r =>
      if c = quoteChar then (jsonStrBody r).map fun p => (.str p.1, p.2)
      else if c = openBraceChar then
        match r.dropWhile isJsonWs with
        | d :: r2 =>
          if d = closeBraceChar then some (.obj [], r2)
          else (jsonMembers f (d :: r2)).map fun p => (.obj p.1, p.2)
        | [] => none
      else if c = '[' then
        match r.dropWhile isJsonWs with
        | ']' :: r2 => some (.arr [], r2)
        | r2 => (jsonElems f r2).map fun p => (.arr p.1, p.2)
      else (jsonNum (c :: r)).map fun p => (.num p.1, p.2)
    | [] => none

/-- The members of a JSON object, up to and including the closing brace. -/
def jsonMembers : Nat → List Char → Option (List (String × JSValue) × List Char)
  | 0, _ => none
  | f + 1, cs =>
    match cs.dropWhile isJsonWs with
    | c :: r =>
      if c = quoteChar then
        match jsonStrBody r with
        | some (k, r2) =>
          match r2.dropWhile isJsonWs with
          | ':' :: r3 =>
            match jsonVal f r3 with
            | some (v, r4) =>
              match r4.dropWhile isJsonWs with
              | ',' :: r5 => (jsonMembers f r5).map fun p => ((k, v) :: p.1, p.2)
              | d :: r5 => if d = closeBraceChar then some ([(k, v)], r5) else none
              | [] => none
            | none => none
          | _ => none
        | none => none
      else none
    | [] => none

/-- The elements of a JSON array, up to and including the closing bracket. -/
def jsonElems : Nat → List Char → Option (List JSValue × List Char)
  | 0, _ => none
  | f + 1, cs =>
    match jsonVal f cs with
    | some (v, r) =>
      match r.dropWhile isJsonWs with
      | ',' :: r2 => (jsonElems f r2).map fun p => (v :: p.1, p.2)
      | ']' :: r2 => some ([v], r2)
      | _ => none
    | none => none

end

/-- `JSON.parse`: a complete JSON text, allowing trailing whitespace. -/
def jsonParse (s : String) : Option JSValue :=
  match jsonVal (2 * s.length + 2) s.toList with
  | some (v, r) => if r.dropWhile isJsonWs = [] then some v else none
  | none => none

/-! ## `Target.dataToObject` (dataset coercion)

`src/core/Target.js`, lines 443–462.  The reduce over `Object.entries`
is a map over the entries in insertion order (dataset keys are unique,
so the `acc[key] = …` writes never collide). -/

/-- The per-entry coercion performed by `Target.dataToObject`:
`"true"`/`"false"` to booleans, then the `!isNaN(value)` test (ECMA
string-to-number coercion) to numbers, then brace-wrapped strings
through `JSON.parse` with the raw string kept on a parse error, else
the raw string. -/
def coerceValue (v : String) : JSValue :=
  if v = "true" then .bool true
  else if v = "false" then .bool false
  else
    match jsStringToNumber v with
    | some n => .num n
    | none =>
      if v.toList.head? = some openBraceChar && v.toList.getLast? = some closeBraceChar then
        match jsonParse v with
        | some j => j
        | none => .str v
      else .str v

/-- `Target.dataToObject(data)`: `{}` for a missing dataset, otherwise
each string-valued entry coerced by `coerceValue`. -/
def dataToObject (data : Option (List (String × String))) : List (String × JSValue) :=
  match data with
  | none => []
  | some d => d.map fun kv => (kv.1, coerceValue kv.2)

/-! ## Printing JavaScript numbers

`Number.prototype.toString()` (radix 10) on the exact decimals of
`JSNum`: integers print without a point; other values print in fixed
notation with trailing zeros stripped.  (JS switches to exponent
notation only beyond `1e21`/`1e-7`; such values are not produced by the
inputs appearing in this development.) -/

/-- Decimal digits of a natural number. -/
def natDecDigits : Nat → Nat → List Char
  | 0, _ => []
  | f + 1, n =>
    if n < 10 then [Char.ofNat (48 + n)]
    else natDecDigits f (n / 10) ++ [Char.ofNat (48 + n % 10)]

/-- Decimal string of a natural number. -/
def natDecStr (n : Nat) : String := String.mk (natDecDigits (n + 1) n)

/-- Strip trailing zeros of the mantissa against a negative exponent. -/
def stripZeros : Nat → Int → Int → Int × Int
  | 0, m, e => (m, e)
  | f + 1, m, e =>
    match e with
    | .negSucc _ => if m % 10 == 0 then stripZeros f (m / 10) (e + 1) else (m, e)
    | .ofNat _ => (m, e)

/-- `10 ^ k` over `Int`, kernel-computable. -/
def pow10 : Nat → Int
  | 0 => 1
  | k + 1 => 10 * pow10 k

/-- Decimal string of an integer. -/
def intDecStr : Int → String
  | .ofNat n => natDecStr n
  | .negSucc n => "-" ++ natDecStr (n + 1)

/-- `Number.prototype.toString()` on a `JSNum`. -/
def jsNumToString : JSNum → String
  | .posInf => "Infinity"
  | .negInf => "-Infinity"
  | .dec m e =>
    match e with
    | .ofNat k => intDecStr (m * pow10 k)
    | .negSucc _ =>
      let me := stripZeros e.natAbs m e
      match me.2 with
      | .ofNat _ => intDecStr me.1
      | .negSucc j =>
        let k := j + 1
        let sign : String := match me.1 with | .negSucc _ => "-" | .ofNat _ => ""
        let ds := natDecDigits (me.1.natAbs + 1) me.1.natAbs
        if k < ds.length then
          sign ++ String.mk (ds.take (ds.length - k)) ++ "." ++ String.mk (ds.drop (ds.length - k))
        else
          sign ++ "0." ++ String.mk (List.replicate (k - ds.length) '0') ++ String.mk ds

/-! ## `Target.escapeHTML`

`src/core/Target.js`, lines 303–385.  Numbers are first converted to
strings; any other non-string input is reported and becomes `""`.  With
`allowTags = false` the five characters `& < > " '` are replaced by
entities (a single character-wise pass, like the character-class regex).
With `allowTags = true` the input is scanned for the pattern
`<\/?([a-zA-Z]+)([^>]*)>`; allowed tags are rebuilt keeping only
allow-listed attributes (values escaped with the plain mode), other
tags have their angle brackets escaped.  The scanner advances one
character when no match starts at the current position and past the
whole match otherwise, exactly like the JS global-regex replace (the
patterns here are deterministic: `[a-zA-Z]+`, `[^>]*` and `[^"]*`
cannot backtrack usefully, since the character after each is excluded
from the class). -/

/-- Entity substitution of the `allowTags = false` mode. -/
def escChar (c : Char) : String :=
  if c = '&' then "&amp;"
  else if c = '<' then "&lt;"
  else if c = '>' then "&gt;"
  else if c = quoteChar then "&quot;"
  else if c = aposChar then "&#39;"
  else String.singleton c

/-- `str.replace(/[&<>"']/g, …)`: full escaping. -/
def escapeNoTags (s : String) : String := String.join (s.toList.map escChar)

/-- `fullTag.replace(/</g, "&lt;").replace(/>/g, "&gt;")` for one
character (the first replace introduces no `>`, so composing the two
global replaces is character-wise). -/
def escAngleChar (c : Char) : String :=
  if c = '<' then "&lt;" else if c = '>' then "&gt;" else String.singleton c

/-- The `allowedTags` object literal: tag name to allow-listed
attribute names.  (Lookup models own-property access; the
`Object.prototype` chain is not modelled — no claim uses tag names
such as `constructor`.) -/
def allowedTags : List (String × List String) :=
  [("b", []), ("i", []), ("u", []), ("s", []), ("a", ["href", "title"]),
   ("code", []), ("pre", []), ("blockquote", []), ("ul", []), ("ol", []),
   ("li", []), ("h1", []), ("h2", []), ("h3", []), ("h4", []), ("h5", []),
   ("h6", []), ("p", []), ("br", []), ("hr", []), ("table", []),
   ("thead", []), ("tbody", []), ("tfoot", []), ("tr", []), ("th", []),
   ("td", []), ("div", []), ("span", [])]

/-- Match of `\/?([a-zA-Z]+)([^>]*)>` against the characters following
a `<`: the closing flag, tag name, attribute text, and the input after
the `>`.  (If a `/` is present but no letter follows, dropping the
optional `/` cannot help, since the name would then have to start at
the non-letter `/`; so failure is final, as in the regex.) -/
def tagAfterLt (cs : List Char) : Option (Bool × List Char × List Char × List Char) :=
  let p : Bool × List Char := match cs with | '/' :: t => (true, t) | _ => (false, cs)
  let name := p.2.takeWhile isAsciiLetter
  if name = [] then none
  else
    let cs3 := p.2.dropWhile isAsciiLetter
    let attrs := cs3.takeWhile fun c => !(c = '>')
    match cs3.dropWhile fun c => !(c = '>') with
    | '>' :: r => some (p.1, name, attrs, r)
    | _ => none

/-- Match of `([a-zA-Z]+)="([^"]*)"` at the head of the attribute text. -/
def tryAttrMatch (cs : List Char) : Option ((String × String) × List Char) :=
  let name := cs.takeWhile isAsciiLetter
  if name = [] then none
  else
    match cs.dropWhile isAsciiLetter with
    | '=' :: q :: rest =>
      if q = quoteChar then
        let v := rest.takeWhile fun c => !(c = quoteChar)
        match rest.dropWhile fun c => !(c = quoteChar) with
        | _ :: r2 => some ((String.mk name, String.mk v), r2)
        | [] => none
      else none
    | _ => none

/-- The `while ((match = attrRegex.exec(attrs)) !== null)` loop: all
matches of the attribute pattern, left to right. -/
def attrScanGo : Nat → List Char → List (String × String)
  | 0, _ => []
  | f + 1, cs =>
    match cs with
    | [] => []
    | c :: rest =>
      match tryAttrMatch (c :: rest) with
      | some (p, r) => p :: attrScanGo f r
      | none => attrScanGo f rest

/-- All attribute matches in the attribute text. -/
def attrMatches (attrs : List Char) : List (String × String) :=
  attrScanGo attrs.length attrs

/-- The replace callback: rebuild an allowed tag with only its
allow-listed attributes (values escaped with the plain mode), escape
the angle brackets of a disallowed tag. -/
def renderTag (isClose : Bool) (name attrs : List Char) : String :=
  match allowedTags.lookup (String.mk name) with
  | some allowedAttrNames =>
    let safeAttrs := String.join ((attrMatches attrs).map fun p =>
      if allowedAttrNames.contains p.1 then
        " " ++ p.1 ++ "=" ++ String.singleton quoteChar ++ escapeNoTags p.2 ++
          String.singleton quoteChar
      else "")
    "<" ++ (if isClose then "/" else "") ++ String.mk name ++ safeAttrs ++ ">"
  | none =>
    let fullTag := '<' :: ((if isClose then ['/'] else []) ++ name ++ attrs ++ ['>'])
    String.join (fullTag.map escAngleChar)

/-- The `allowTags = true` scanning loop.  Fuel starts at the input
length; every step consumes at least one character, so the fuel never
runs out on the entry point. -/
def escTagsGo : Nat → List Char → String
  | 0, cs => String.mk cs
  | _ + 1, [] => ""
  | f + 1, c :: rest =>
    if c = '<' then
      match tagAfterLt rest with
      | some (isClose, name, attrs, r) => renderTag isClose name attrs ++ escTagsGo f r
      | none => String.singleton c ++ escTagsGo f rest
    else String.singleton c ++ escTagsGo f rest

/-- The `allowTags = true` mode on a string. -/
def escapeTags (s : String) : String := escTagsGo s.toList.length s.toList

/-- `Target.escapeHTML(str, allowTags)`. -/
def escapeHTML (v : JSValue) (allowTags : Bool) : String :=
  let w : JSValue := match v with | .num n => .str (jsNumToString n) | x => x
  match w with
  | .str s => if allowTags then escapeTags s else escapeNoTags s
  | _ => ""

/-! ## `Target.parseHTML`

`src/core/Target.js`, lines 394–405: the single pass of
`template.replace(/\{\{(\w+)\}\}/g, …)`.  A defined (non-`undefined`)
placeholder is substituted with its escaped value — key `content` with
tag-permissive escaping, everything else with full escaping — and an
unknown token is left in place. -/

/-- Match of `(\w+)\}\}` against the characters following two opening
braces. -/
def tokenAfterBraces (cs : List Char) : Option (List Char × List Char) :=
  match cs.takeWhile isWordChar with
  | [] => none
  | key =>
    match cs.dropWhile isWordChar with
    | c1 :: c2 :: r =>
      if c1 = closeBraceChar && c2 = closeBraceChar then some (key, r) else none
    | _ => none

/-- The literal text of a placeholder token. -/
def tokenText (key : List Char) : String :=
  "\x7b\x7b" ++ String.mk key ++ "\x7d\x7d"

/-- The replace callback of `parseHTML`: substitute a defined
placeholder (the `content` key keeps allowed tags), keep the token text
otherwise (`typeof placeholders[key] !== "undefined"`). -/
def substToken (ph : List (String × JSValue)) (key : List Char) : String :=
  match ph.lookup (String.mk key) with
  | some .undefined => tokenText key
  | none => tokenText key
  | some v => if String.mk key = "content" then escapeHTML v true else escapeHTML v false

/-- The scanning loop of `parseHTML`.  As with `escTagsGo`, the fuel
starts at the input length and cannot run out. -/
def parseHTMLgo (ph : List (String × JSValue)) : Nat → List Char → String
  | 0, cs => String.mk cs
  | _ + 1, [] => ""
  | f + 1, c :: rest =>
    if c = openBraceChar then
      match rest with
      | c2 :: rest2 =>
        if c2 = openBraceChar then
          match tokenAfterBraces rest2 with
          | some (key, r) => substToken ph key ++ parseHTMLgo ph f r
          | none => String.singleton c ++ parseHTMLgo ph f rest
        else String.singleton c ++ parseHTMLgo ph f rest
      | [] => String.singleton c
    else String.singleton c ++ parseHTMLgo ph f rest

/-- `Target.parseHTML(template, placeholders)`. -/
def parseHTML (template : String) (ph : List (String × JSValue)) : String :=
  parseHTMLgo ph template.toList.length template.toList

/-! ## String helpers for `StyleManager` (kernel-computable stand-ins
for `String.startsWith` / `split` / `trim`) -/

/-- `pre` is a prefix of `cs`. -/
def listStartsWith : List Char → List Char → Bool
  | [], _ => true
  | _ :: _, [] => false
  | p :: ps, c :: cs => p = c && listStartsWith ps cs

/-- `s.startsWith(pre)`. -/
def strStartsWith (s pre : String) : Bool := listStartsWith pre.toList s.toList

/-- `s.trim()` (JavaScript whitespace). -/
def jsTrim (s : String) : String := String.mk (trimJsWs s.toList)

/-- `s.split(',')` on characters. -/
def splitComma : List Char → List (List Char)
  | [] => [[]]
  | c :: rest =>
    match splitComma rest with
    | h :: t => if c = ',' then [] :: h :: t else (c :: h) :: t
    | [] => if c = ',' then [[], []] else [[c]]

/-! ## `StyleManager`

`src/core/StyleManager.js`.  The document head is a list of nodes in
insertion order; `querySelector` returns the first matching node.  The
`styles` Map is modelled by its key list in insertion order (the mapped
style-element references are never consulted by the source), and the
`injectedLinks` Set by its element list. -/

/-- A node of the document head created by the style manager. -/
inductive HeadNode
  | style (dataStyleKey : String) (content : String)
  | link (dataStyleKey : String) (href : String) (rel : String)
  deriving DecidableEq, Repr

/-- The `StyleManager` instance state. -/
structure StyleManager where
  styles : List String
  injectedLinks : List String
  deriving DecidableEq, Repr

/-- A thrown JavaScript error. -/
inductive JSError
  | typeError
  deriving DecidableEq, Repr

/-- The value of one entry of the `css` argument of `addStyle`: a
declaration string for a plain selector, a nested selector map for a
`@media` block. -/
inductive CssVal
  | decl (rules : String)
  | nested (m : List (String × String))

/-- `Object.entries` of a `CssVal` (`Object.entries` of a string value
enumerates its characters by index — reachable when a `@media` entry
maps to a string). -/
def entriesOfVal : CssVal → List (String × String)
  | .nested m => m
  | .decl s => s.toList.enum.map fun p => (natDecStr p.1, String.singleton p.2)

/-- Is this character one of the compaction targets `: ; , {`? -/
def isCssSpecial (c : Char) : Bool :=
  c = ':' || c = ';' || c = ',' || c = openBraceChar

/-- The scanning loop of `rules.replace(/\s*([:;,{])\s*/g, '$1')`: a
match is any whitespace run followed by a special character followed by
a whitespace run; a position where no match starts advances by one
character. -/
def compactGo : Nat → List Char → List Char
  | 0, cs => cs
  | _ + 1, [] => []
  | f + 1, c :: rest =>
    match (c :: rest).dropWhile isJsWhitespace with
    | x :: r2 =>
      if isCssSpecial x then x :: compactGo f (r2.dropWhile isJsWhitespace)
      else c :: compactGo f rest
    | [] => c :: compactGo f rest

/-- `rules.replace(/\s*([:;,{])\s*/g, '$1')`. -/
def compactRules (s : String) : String := String.mk (compactGo s.toList.length s.toList)

/-- `StyleManager.prefixSelector(selector, hash)`. -/
def prefixSelector (selector hash : String) : String :=
  String.intercalate ", "
    ((splitComma selector.toList).map fun sel => jsTrim (String.mk sel) ++ "-" ++ hash)

/-- `StyleManager.processRules(rules, hash, isScoped)`. -/
def processRules (rules : List (String × String)) (hash : String) (isScoped : Bool) : String :=
  String.intercalate " " (rules.map fun p =>
    let rule := compactRules p.2
    let sel := if isScoped then prefixSelector p.1 hash else p.1
    sel ++ " \x7b " ++ rule ++ " \x7d")

/-- Serialization of one `css` entry inside `addStyle`; `none` models
the `TypeError` thrown by `rules.replace` when a non-`@media` selector
maps to a nested object instead of a string. -/
def cssEntryString (hash : String) (isScoped : Bool) (e : String × CssVal) : Option String :=
  if strStartsWith e.1 "@media" then
    some (e.1 ++ " \x7b " ++ processRules (entriesOfVal e.2) hash isScoped ++ " \x7d")
  else
    match e.2 with
    | .decl rules =>
      let sel := if isScoped then prefixSelector e.1 hash else e.1
      some (sel ++ " \x7b " ++ compactRules rules ++ " \x7d")
    | .nested _ => none

/-- The `cssString` accumulated by `addStyle`'s `forEach`. -/
def cssToString (css : List (String × CssVal)) (hash : String) (isScoped : Bool) : Option String :=
  css.foldl (fun acc e => acc.bind fun a => (cssEntryString hash isScoped e).map fun s => a ++ s)
    (some "")

/-- `document.querySelector('style[data-style-key="key"]') !== null`. -/
def headHasStyleKey (head : List HeadNode) (key : String) : Bool :=
  head.any fun n => match n with | .style k _ => k = key | .link _ _ _ => false

/-- `document.querySelector('link[data-style-key="key"]') !== null`. -/
def headHasLinkKey (head : List HeadNode) (key : String) : Bool :=
  head.any fun n => match n with | .style _ _ => false | .link k _ _ => k = key

/-- `StyleManager.isStyleLoaded(key)`: registry hit or a `style` node
whose `data-style-key` is exactly `key`. -/
def isStyleLoaded (sm : StyleManager) (head : List HeadNode) (key : String) : Bool :=
  sm.styles.contains key || headHasStyleKey head key

/-- Result of a `StyleManager` operation that can throw: the state and
head after the mutations that happened before the (optional) throw. -/
structure SMResult where
  sm : StyleManager
  head : List HeadNode
  err : Option JSError
  deriving Repr

/-- `StyleManager.addStyle(key, css, hash, isScoped)`: no-op when
`isStyleLoaded(key)`; otherwise create a style node tagged
`key + '-' + hash`, append it to the head, register `key`, then
serialize `css` into the node (`innerHTML` is assigned on the already
appended element, so on a serialization `TypeError` the empty node and
the registry entry remain). -/
def addStyle (sm : StyleManager) (head : List HeadNode) (key : String)
    (css : List (String × CssVal)) (hash : String) (isScoped : Bool) : SMResult :=
  if isStyleLoaded sm head key then ⟨sm, head, none⟩
  else
    let derivedKey := key ++ "-" ++ hash
    let sm2 : StyleManager := { sm with styles := sm.styles ++ [key] }
    match cssToString css hash isScoped with
    | none => ⟨sm2, head ++ [HeadNode.style derivedKey ""], some .typeError⟩
    | some s => ⟨sm2, head ++ [HeadNode.style derivedKey s], none⟩

/-- Remove the first `style` node whose `data-style-key` is `key`. -/
def removeFirstStyle (head : List HeadNode) (key : String) : List HeadNode :=
  match head with
  | [] => []
  | n :: rest =>
    match n with
    | .style k c => if k = key then rest else .style k c :: removeFirstStyle rest key
    | .link k h r => .link k h r :: removeFirstStyle rest key

/-- Remove the first `link` node whose `data-style-key` is `key`. -/
def removeFirstLink (head : List HeadNode) (key : String) : List HeadNode :=
  match head with
  | [] => []
  | n :: rest =>
    match n with
    | .style k c => .style k c :: removeFirstLink rest key
    | .link k h r => if k = key then rest else .link k h r :: removeFirstLink rest key

/-- `StyleManager.removeStyle(key)`: `querySelector` for a `style` node
whose `data-style-key` equals the raw `key`; only when found, remove
the node and delete the registry entry. -/
def removeStyle (sm : StyleManager) (head : List HeadNode) (key : String) :
    StyleManager × List HeadNode :=
  if headHasStyleKey head key then
    ({ sm with styles := sm.styles.erase key }, removeFirstStyle head key)
  else (sm, head)

/-- `StyleManager.removeInjectedLinkedStyle(href)`. -/
def removeInjectedLinkedStyle (sm : StyleManager) (head : List HeadNode) (href : String) :
    StyleManager × List HeadNode :=
  if headHasLinkKey head href then
    ({ sm with injectedLinks := sm.injectedLinks.erase href }, removeFirstLink head href)
  else (sm, head)

/-- `StyleManager.removeAllStyles()`: `removeStyle` for every
registered key, then `removeInjectedLinkedStyle` for every tracked
href.  (The JS `for…of` iterates the live Map/Set, but each step
deletes at most the key it has already yielded, so iterating the
initial key list is equivalent.) -/
def removeAllStyles (sm : StyleManager) (head : List HeadNode) :
    StyleManager × List HeadNode :=
  let p1 := sm.styles.foldl (fun p k => removeStyle p.1 p.2 k) (sm, head)
  sm.injectedLinks.foldl (fun p h => removeInjectedLinkedStyle p.1 p.2 h) p1

/-! ## Random hash generation

`Target.generateRandomHash` (`src/core/Target.js`, lines 110–115)
concatenates `Math.random().toString(36).substring(2, 6)` twice.  The
embedding takes the two base-36 renderings produced by
`Math.random().toString(36)` as inputs: such a rendering is either
`"0"` (for the double `0`) or `"0."` followed by at least one lowercase
base-36 digit, and it is shorter than 6 characters exactly when the
random double has a base-36 expansion of fewer than four fractional
digits (e.g. `(0.5).toString(36) = "0.i"`). -/

/-- `String.prototype.substring(a, b)`: clamp both indices to the
length, swap them if needed, take the characters in between. -/
def jsSubstring (s : String) (a b : Nat) : String :=
  let len := s.toList.length
  let x := min a len
  let y := min b len
  String.mk ((s.toList.drop (min x y)).take (max x y - min x y))

/-- `Target.generateRandomHash()` as a function of the two
`Math.random().toString(36)` renderings. -/
def generateRandomHash (r1 r2 : String) : String :=
  jsSubstring r1 2 6 ++ jsSubstring r2 2 6

/-- Is `s` a possible value of `Math.random().toString(36)`: `"0"`, or
`"0."` followed by one or more lowercase base-36 digits? -/
def validRand36 (s : String) : Bool :=
  s = "0" ||
    (listStartsWith "0.".toList s.toList && !(s.toList.drop 2 = []) &&
      (s.toList.drop 2).all isBase36)

/-! ## The `Target` lifecycle

`src/core/Target.js`.  The container reference is `Option Unit` (the
actual node's `innerHTML` lives in `Doc`); `render()` is the
subclass-supplied method, passed as a function of the instance; the
lifecycle hooks of the base class only log, so their invocations are
recorded as events.  A `StepResult` carries the instance, the document
and the emitted events after the operation, plus the error that
propagated out of it, if any (the mutations before a throw are kept,
as in JS). -/

/-- The observable document state: the head (shared with the style
manager) and the container's `innerHTML`. -/
structure Doc where
  head : List HeadNode
  containerHTML : String
  deriving DecidableEq, Repr

/-- Lifecycle observations. -/
inductive Event
  | willMount
  | domWrite
  | didMount
  | didUpdate
  deriving DecidableEq, Repr

/-- The `Target` instance state (the fields of the constructor,
`src/core/Target.js` lines 30–48). -/
structure Target where
  props : List (String × JSValue)
  state : List (String × JSValue)
  container : Option Unit
  parent : Option Unit
  api : Option Unit
  isMounted : Bool
  styleManager : StyleManager
  hash : String
  styleId : Option String

/-- The `Target` constructor, for a non-null container whose
`data-target-name` attribute is `containerName` and with `r1`, `r2`
the two `Math.random().toString(36)` renderings drawn by
`generateRandomHash`. -/
def Target.construct (props : List (String × JSValue)) (containerName : Option String)
    (r1 r2 : String) : Target :=
  { props := props
    state := []
    container := some ()
    parent := none
    api := none
    isMounted := false
    styleManager := ⟨[], []⟩
    hash := generateRandomHash r1 r2
    styleId := containerName }

/-- Result of a lifecycle operation. -/
structure StepResult where
  t : Target
  doc : Doc
  events : List Event
  err : Option JSError

/-- The spread merge `{ ...a, ...b }`: keys of `a` in order with values
overridden by `b`, then the new keys of `b`. -/
def spreadMerge (a b : List (String × JSValue)) : List (String × JSValue) :=
  (a.map fun kv => (kv.1, (b.lookup kv.1).getD kv.2)) ++
    b.filter fun kv => (a.lookup kv.1).isNone

/-- `Target.update()` (`src/core/Target.js`, lines 246–262): with a
container, run `targetWillMount` when not yet mounted, write
`render()`'s output into the container, run `targetDidMount` and set
`isMounted` when not yet mounted, then `targetDidUpdate`; without a
container, do nothing. -/
def Target.update (render : Target → String) (t : Target) (doc : Doc) : StepResult :=
  match t.container with
  | some _ =>
    let evs1 : List Event := if t.isMounted then [] else [.willMount]
    let doc2 : Doc := { doc with containerHTML := render t }
    let evs2 : List Event := if t.isMounted then [] else [.didMount]
    let t2 : Target := if t.isMounted then t else { t with isMounted := true }
    ⟨t2, doc2, evs1 ++ [.domWrite] ++ evs2 ++ [.didUpdate], none⟩
  | none => ⟨t, doc, [], none⟩

/-- `Target.setState(newState)` (lines 172–175): spread-merge the patch
into the state, then `update()`. -/
def Target.setState (render : Target → String) (t : Target) (doc : Doc)
    (patch : List (String × JSValue)) : StepResult :=
  Target.update render { t with state := spreadMerge t.state patch } doc

/-- `Target.unmount()` (lines 267–273): `removeAllStyles`, then assign
`this.container.innerHTML = ""` — which throws a `TypeError` when the
container reference has been released by `destroy()`. -/
def Target.unmount (t : Target) (doc : Doc) : StepResult :=
  let p := removeAllStyles t.styleManager doc.head
  let t2 : Target := { t with styleManager := p.1 }
  match t.container with
  | some _ => ⟨t2, { head := p.2, containerHTML := "" }, [], none⟩
  | none => ⟨t2, { doc with head := p.2 }, [], some .typeError⟩

/-- `Target.destroy()` (lines 278–284): `unmount()`, then release the
container reference (not reached if `unmount` threw). -/
def Target.destroy (t : Target) (doc : Doc) : StepResult :=
  let r := Target.unmount t doc
  match r.err with
  | some _ => r
  | none => ⟨{ r.t with container := none }, r.doc, r.events, none⟩

/-- `Target.initialize()` (lines 89–104): copy every `data-*` attribute
of the container's `[data-target-name]` elements into `props` (the
`querySelectorAll` result is supplied as the list of datasets found;
the attribute removal and the dev-mode marker comments touch only DOM
state that no claim observes).  Throws when the container reference has
been released. -/
def initTarget (t : Target) (found : List (List (String × String))) :
    Target × Option JSError :=
  match t.container with
  | none => (t, some .typeError)
  | some _ =>
    let setProp := fun (ps : List (String × JSValue)) (kv : String × String) =>
      if (ps.lookup kv.1).isSome then
        ps.map fun p => if p.1 = kv.1 then (p.1, JSValue.str kv.2) else p
      else ps ++ [(kv.1, JSValue.str kv.2)]
    ({ t with props := found.foldl (fun ps ds => ds.foldl setProp ps) t.props }, none)

/-! ## Shared sample data for concrete instantiations -/

/-- A sample subclass `render()` implementation. -/
def sampleRender : Target → String := fun _ => "out"

/-- A sample constructed instance (container attribute `"app"`, two
ordinary 8-character random renderings). -/
def sampleTarget : Target := Target.construct [] (some "app") "0.abcd12" "0.efgh34"

/-- An initially empty document. -/
def sampleDoc : Doc := ⟨[], ""⟩

/-- `sampleTarget` after its first (successful) `destroy()`. -/
def destroyedSample : StepResult := Target.destroy sampleTarget sampleDoc

/-- A sample `css` argument for `addStyle`. -/
def sampleCss : List (String × CssVal) := [("p", CssVal.decl "c:red")]

/-! ## C1 — lifecycle ordering of `update()` -/

/-- **C1.** For a `Target` with a non-null container: the first
`update()` runs exactly `targetWillMount`, the DOM write of
`render()`'s output, `targetDidMount`, then `targetDidUpdate`, in that
order, and sets `isMounted`; every later `update()` — including those
triggered by `setState` — runs the DOM write and `targetDidUpdate`
only, never `targetWillMount`/`targetDidMount` again. -/
theorem C1_lifecycle_order (render : Target → String) (t : Target) (doc : Doc)
    (hc : t.container = some ()) :
    (t.isMounted = false →
      Target.update render t doc =
        ⟨{ t with isMounted := true }, { doc with containerHTML := render t },
          [.willMount, .domWrite, .didMount, .didUpdate], none⟩) ∧
    (t.isMounted = true →
      Target.update render t doc =
        ⟨t, { doc with containerHTML := render t }, [.domWrite, .didUpdate], none⟩) ∧
    (∀ patch, t.isMounted = true →
      (Target.setState render t doc patch).events = [.domWrite, .didUpdate] ∧
      (Target.setState render t doc patch).t.isMounted = true) := by
  refine ⟨fun h => ?_, fun h => ?_, fun patch h => ?_⟩ <;>
    simp [Target.update, Target.setState, hc, h]

/-- **C1**, witnessed on a concrete fresh instance. -/
theorem C1_witness :
    Target.update sampleRender sampleTarget sampleDoc =
      ⟨{ sampleTarget with isMounted := true },
        { sampleDoc with containerHTML := sampleRender sampleTarget },
        [.willMount, .domWrite, .didMount, .didUpdate], none⟩ :=
  (C1_lifecycle_order sampleRender sampleTarget sampleDoc rfl).1 rfl

/-! ## C2 — lifecycle operations after `destroy()`

The claim states that `update()`, `setState()`, `unmount()` and a
second `destroy()` all silently no-op on a destroyed instance.  The
code guards only `update()` (and through it `setState`);
`unmount()` — and therefore a second `destroy()`, which begins with
`unmount()` — unconditionally assigns `this.container.innerHTML`,
which throws a `TypeError` on the released (null) container. -/

/-- **C2** (counterexample).  After a successful `destroy()` of a
concrete instance, `unmount()` and a second `destroy()` throw a
`TypeError` instead of no-opping. -/
theorem C2_counterexample_unmount_throws :
    destroyedSample.err = none ∧
    (Target.unmount destroyedSample.t destroyedSample.doc).err = some JSError.typeError ∧
    (Target.destroy destroyedSample.t destroyedSample.doc).err = some JSError.typeError :=
  ⟨rfl, rfl, rfl⟩

/-- **C2** (amended).  On a destroyed instance (`container = null`):
`update()` and `setState()` silently no-op — no throw, no DOM
mutation, no hook runs; `unmount()` and a second `destroy()` run the
(ineffective) style cleanup and then throw a `TypeError` at the
`innerHTML` assignment, never reaching the container write. -/
theorem C2_destroyed_lifecycle_amended (render : Target → String) (t : Target) (doc : Doc)
    (hc : t.container = none) :
    Target.update render t doc = ⟨t, doc, [], none⟩ ∧
    (∀ patch,
      (Target.setState render t doc patch).doc = doc ∧
      (Target.setState render t doc patch).events = [] ∧
      (Target.setState render t doc patch).err = none) ∧
    ((Target.unmount t doc).err = some JSError.typeError ∧
      (Target.unmount t doc).doc.containerHTML = doc.containerHTML) ∧
    ((Target.destroy t doc).err = some JSError.typeError ∧
      (Target.destroy t doc).doc.containerHTML = doc.containerHTML) := by
  refine ⟨?_, fun patch => ⟨?_, ?_, ?_⟩, ⟨?_, ?_⟩, ⟨?_, ?_⟩⟩ <;>
    simp [Target.update, Target.setState, Target.unmount, Target.destroy, hc]

/-- **C2** (amended), witnessed on the concrete destroyed instance. -/
theorem C2_witness :
    Target.update sampleRender destroyedSample.t destroyedSample.doc =
      ⟨destroyedSample.t, destroyedSample.doc, [], none⟩ :=
  (C2_destroyed_lifecycle_amended sampleRender destroyedSample.t destroyedSample.doc rfl).1

/-! ## C3 — `setState` after `destroy()` is a safe no-op -/

/-- **C3.** After `destroy()`, a `setState(patch)` does not throw and
mutates no DOM state (document unchanged, no events): the state merge
still happens, but the dead-container guard in `update()` renders
nothing. -/
theorem C3_setState_after_destroy (render : Target → String) (t : Target) (doc : Doc)
    (patch : List (String × JSValue)) (hc : t.container = none) :
    Target.setState render t doc patch =
      ⟨{ t with state := spreadMerge t.state patch }, doc, [], none⟩ := by
  simp [Target.setState, Target.update, hc]

/-- **C3**, witnessed on the concrete destroyed instance. -/
theorem C3_witness :
    Target.setState sampleRender destroyedSample.t destroyedSample.doc
        [("a", JSValue.str "b")] =
      ⟨{ destroyedSample.t with
          state := spreadMerge destroyedSample.t.state [("a", JSValue.str "b")] },
        destroyedSample.doc, [], none⟩ :=
  C3_setState_after_destroy sampleRender destroyedSample.t destroyedSample.doc
    [("a", JSValue.str "b")] rfl

/-! ## C4 — idempotence of `addStyle`

The claim has two parts.  Calling `addStyle` a second time with the
same key is indeed a no-op (the first call, even one that throws
mid-serialization, registers the key before serializing, and the
second call hits the registry).  But the DOM-hit fallback of
`isStyleLoaded` queries `style[data-style-key="key"]` with the *raw*
key, while `addStyle` tags the node it creates with the *derived* key
`key + '-' + hash` — so a node left in the head by a discarded
instance is not detected, and `addStyle` injects a duplicate. -/

/-- **C4** (counterexample).  With a style node carrying the derived
key `"k-h1"` already in the head — as left by a discarded instance —
`addStyle("k", …, "h1")` on a fresh manager is *not* a no-op: the head
grows from one style node to two. -/
theorem C4_counterexample_derived_key_missed :
    (addStyle ⟨[], []⟩ [HeadNode.style "k-h1" "c:red"] "k" sampleCss "h1" false).head.length = 2 ∧
    [HeadNode.style "k-h1" "c:red"].length = 1 ∧
    (addStyle ⟨[], []⟩ [HeadNode.style "k-h1" "c:red"] "k" sampleCss "h1" false).head ≠
      [HeadNode.style "k-h1" "c:red"] := by
  refine ⟨rfl, rfl, by decide⟩

/-- **C4** (amended).  Calling `addStyle` a second time with the same
key is observably identical to calling it once (whatever the second
call's css/hash/scoped arguments); and `addStyle` is a no-op when a
style node whose `data-style-key` equals the *raw* key is present in
the head.  A node tagged with the derived key `key + '-' + hash` (the
tag `addStyle` itself writes) is *not* detected. -/
theorem C4_addStyle_idempotent_amended (sm : StyleManager) (head : List HeadNode)
    (key : String) (css css2 : List (String × CssVal)) (hash hash2 : String)
    (sc sc2 : Bool) :
    (addStyle (addStyle sm head key css hash sc).sm (addStyle sm head key css hash sc).head
        key css2 hash2 sc2 =
      ⟨(addStyle sm head key css hash sc).sm, (addStyle sm head key css hash sc).head, none⟩) ∧
    (headHasStyleKey head key = true → addStyle sm head key css hash sc = ⟨sm, head, none⟩) := by
  constructor
  · by_cases h : isStyleLoaded sm head key = true
    · simp [addStyle, h]
    · obtain ⟨h1, h2⟩ : key ∉ sm.styles ∧ headHasStyleKey head key = false := by
        simpa [isStyleLoaded] using h
      cases hcss : cssToString css hash sc <;>
        simp [addStyle, isStyleLoaded, h1, h2, hcss]
  · intro h
    simp [addStyle, isStyleLoaded, h]

/-- **C4** (amended), witnessed: a raw-key node in the head makes a
concrete `addStyle` call a no-op. -/
theorem C4_witness :
    addStyle ⟨[], []⟩ [HeadNode.style "k" "c:red"] "k" sampleCss "h1" false =
      ⟨⟨[], []⟩, [HeadNode.style "k" "c:red"], none⟩ :=
  (C4_addStyle_idempotent_amended ⟨[], []⟩ [HeadNode.style "k" "c:red"] "k" sampleCss
    sampleCss "h1" "h1" false false).2 (by decide)

/-! ## C5 — `removeStyle` after `addStyle`

`addStyle` tags the created node `key + '-' + hash` and registers the
element under `key` in the `styles` Map, but `removeStyle(key)`
ignores the Map and queries the DOM for
`style[data-style-key="key"]` — which never matches the tag `addStyle`
wrote.  Nothing is removed and the key is never deregistered, so
`removeAllStyles()` (and through it `unmount`/`destroy`) also removes
nothing.  The claim (like the code's own doc comment, and like
`unmount`'s reliance on `removeAllStyles` for style teardown) is the
evident intent; the raw-key query is the slip. -/

/-- **C5** (code bug, evaluated).  After `addStyle("k", …, "h1")` on an
empty head, the head holds the node tagged `"k-h1"` and the registry
holds `"k"` — and both `removeStyle("k")` and `removeAllStyles()`
leave the manager and the head completely unchanged. -/
theorem C5_removeStyle_never_matches :
    (addStyle ⟨[], []⟩ [] "k" sampleCss "h1" false).head =
      [HeadNode.style "k-h1" "p \x7b c:red \x7d"] ∧
    (addStyle ⟨[], []⟩ [] "k" sampleCss "h1" false).sm.styles = ["k"] ∧
    removeStyle (addStyle ⟨[], []⟩ [] "k" sampleCss "h1" false).sm
        (addStyle ⟨[], []⟩ [] "k" sampleCss "h1" false).head "k" =
      ((addStyle ⟨[], []⟩ [] "k" sampleCss "h1" false).sm,
        (addStyle ⟨[], []⟩ [] "k" sampleCss "h1" false).head) ∧
    removeAllStyles (addStyle ⟨[], []⟩ [] "k" sampleCss "h1" false).sm
        (addStyle ⟨[], []⟩ [] "k" sampleCss "h1" false).head =
      ((addStyle ⟨[], []⟩ [] "k" sampleCss "h1" false).sm,
        (addStyle ⟨[], []⟩ [] "k" sampleCss "h1" false).head) :=
  ⟨rfl, rfl, rfl, rfl⟩

/-! ## C6 — placeholder substitution in `parseHTML` -/

/-- `takeWhile`/`dropWhile` on a block of satisfying characters
followed by a failing one. -/
theorem append_takeWhile_dropWhile {p : Char → Bool} :
    ∀ (k : List Char) (c : Char) (r : List Char), k.all p = true → p c = false →
      (k ++ c :: r).takeWhile p = k ∧ (k ++ c :: r).dropWhile p = c :: r := by
  intro k
  induction k with
  | nil => intro c r _ hc; simp [List.takeWhile_cons, List.dropWhile_cons, hc]
  | cons a t ih =>
    intro c r hk hc
    simp only [List.all_cons, Bool.and_eq_true] at hk
    have h := ih c r hk.2 hc
    simp [List.takeWhile_cons, List.dropWhile_cons, hk.1, h.1, h.2]

/-- The token matcher accepts exactly `key}}` for a nonempty word-character key. -/
theorem tokenAfterBraces_token (k r : List Char) (hk : k.all isWordChar = true)
    (hne : k ≠ []) :
    tokenAfterBraces (k ++ closeBraceChar :: closeBraceChar :: r) = some (k, r) := by
  have hcb : isWordChar closeBraceChar = false := by decide
  have h := append_takeWhile_dropWhile k closeBraceChar (closeBraceChar :: r) hk hcb
  unfold tokenAfterBraces
  rw [h.1, h.2]
  cases k with
  | nil => exact absurd rfl hne
  | cons a t => simp

/-- Character list of a placeholder token. -/
theorem tokenText_toList (k : List Char) :
    (tokenText k).toList = openBraceChar :: openBraceChar ::
      (k ++ [closeBraceChar, closeBraceChar]) := by
  simp [tokenText, openBraceChar, closeBraceChar]

/-- A defined (non-`undefined`) placeholder token is substituted with
the escaped value; the `content` key allows tags. -/
theorem parseHTML_token_defined (k : List Char) (v : JSValue)
    (ph : List (String × JSValue)) (hk : k.all isWordChar = true) (hne : k ≠ [])
    (hl : ph.lookup (String.mk k) = some v) (hv : v ≠ JSValue.undefined) :
    parseHTML (tokenText k) ph =
      (if String.mk k = "content" then escapeHTML v true else escapeHTML v false) := by
  have h4 : (openBraceChar :: openBraceChar ::
      (k ++ [closeBraceChar, closeBraceChar])).length = k.length + 4 := by
    simp
  unfold parseHTML
  rw [tokenText_toList, h4, show (k.length + 4) = (k.length + 3) + 1 from rfl]
  simp only [parseHTMLgo, if_pos, tokenAfterBraces_token k [] hk hne]
  cases v with
  | undefined => exact absurd rfl hv
  | str s => simp [substToken, hl]
  | num n => simp [substToken, hl]
  | bool b => simp [substToken, hl]
  | null => simp [substToken, hl]
  | obj l => simp [substToken, hl]
  | arr l => simp [substToken, hl]

/-- An absent placeholder token is left literally in place. -/
theorem parseHTML_token_absent (k : List Char) (ph : List (String × JSValue))
    (hk : k.all isWordChar = true) (hne : k ≠ [])
    (hl : ph.lookup (String.mk k) = none) :
    parseHTML (tokenText k) ph = tokenText k := by
  have h4 : (openBraceChar :: openBraceChar ::
      (k ++ [closeBraceChar, closeBraceChar])).length = k.length + 4 := by
    simp
  unfold parseHTML
  rw [tokenText_toList, h4, show (k.length + 4) = (k.length + 3) + 1 from rfl]
  simp only [parseHTMLgo, if_pos, tokenAfterBraces_token k [] hk hne]
  simp [substToken, hl]

/-- **C6.** `parseHTML` substitutes each `\x7b\x7bkey\x7d\x7d` token
whose key is a defined entry of the placeholder map with the escaped
value — the key `content` escaped with `allowTags = true`, every other
key with full escaping — and leaves an absent token literally in
place; in particular the spec's example template yields
`"A and \x7b\x7by\x7d\x7d"`. -/
theorem C6_parseHTML_placeholders :
    (parseHTML "\x7b\x7bx\x7d\x7d and \x7b\x7by\x7d\x7d" [("x", JSValue.str "A")] =
      "A and \x7b\x7by\x7d\x7d") ∧
    (∀ (k : List Char) (v : JSValue) (ph : List (String × JSValue)),
      k.all isWordChar = true → k ≠ [] →
      ph.lookup (String.mk k) = some v → v ≠ JSValue.undefined →
      parseHTML (tokenText k) ph =
        (if String.mk k = "content" then escapeHTML v true else escapeHTML v false)) ∧
    (∀ (k : List Char) (ph : List (String × JSValue)),
      k.all isWordChar = true → k ≠ [] →
      ph.lookup (String.mk k) = none →
      parseHTML (tokenText k) ph = tokenText k) :=
  ⟨rfl, parseHTML_token_defined, parseHTML_token_absent⟩

/-- **C6**, witnessed: a defined key `t` is substituted (fully escaped,
since it is not `content`), an absent key `z` is kept. -/
theorem C6_witness :
    parseHTML (tokenText ['t']) [("t", JSValue.str "<i>")] =
      escapeHTML (JSValue.str "<i>") false ∧
    parseHTML (tokenText ['z']) [("t", JSValue.str "<i>")] = tokenText ['z'] := by
  constructor
  · have h := C6_parseHTML_placeholders.2.1 ['t'] (JSValue.str "<i>")
      [("t", JSValue.str "<i>")] (by decide) (by decide) rfl (fun hx => nomatch hx)
    rw [if_neg (by decide)] at h
    exact h
  · exact C6_parseHTML_placeholders.2.2 ['z'] [("t", JSValue.str "<i>")]
      (by decide) (by decide) rfl

/-! ## C7 — `escapeHTML` behaviour -/

/-- **C7.** With `allowTags = false`, every occurrence of
`& < > " '` is replaced by its entity (a character-wise pass, shown on
the spec's example); with `allowTags = true`, allow-listed tags are
kept (retaining only allow-listed attributes, whose values are
escaped), and a disallowed tag is neutralized by escaping only its
angle brackets; a numeric input is first converted to its decimal
string; every other non-string input yields the empty string (without
throwing — the model is total). -/
theorem C7_escapeHTML_behaviour :
    (escapeHTML (.str "<b>hi</b>") false = "&lt;b&gt;hi&lt;/b&gt;") ∧
    (escapeHTML (.str "<b>hi</b><script>x</script>") true =
      "<b>hi</b>&lt;script&gt;x&lt;/script&gt;") ∧
    (escapeHTML (.str "<a href=\x22x&y\x22 onclick=\x22bad()\x22>t</a>") true =
      "<a href=\x22x&amp;y\x22>t</a>") ∧
    (∀ s : String, escapeHTML (.str s) false = String.join (s.toList.map escChar)) ∧
    (∀ (n : JSNum) (b : Bool),
      escapeHTML (.num n) b = escapeHTML (.str (jsNumToString n)) b) ∧
    (∀ i : Int, jsNumToString (.dec i 0) = intDecStr i) ∧
    (∀ b : Bool, escapeHTML .null b = "" ∧ escapeHTML .undefined b = "") ∧
    (∀ b x : Bool, escapeHTML (.bool x) b = "") ∧
    (∀ (b : Bool) (l : List (String × JSValue)), escapeHTML (.obj l) b = "") ∧
    (∀ (b : Bool) (l : List JSValue), escapeHTML (.arr l) b = "") := by
  refine ⟨rfl, rfl, rfl, fun s => rfl, fun n b => rfl, fun i => ?_,
    fun b => ⟨rfl, rfl⟩, fun b x => rfl, fun b l => rfl, fun b l => rfl⟩
  simp [jsNumToString, pow10]

/-! ## C10 — tag-permissive mode leaves bare text untouched -/

/-- Characters before the first possible tag opener pass through the
tag-mode scanner unchanged. -/
theorem escTagsGo_append_no_lt (pre rest : List Char)
    (h : pre.all (fun c => !(c = '<')) = true) :
    escTagsGo (pre ++ rest).length (pre ++ rest) =
      String.mk pre ++ escTagsGo rest.length rest := by
  induction pre with
  | nil => simp [String.mk]
  | cons c t ih =>
    simp only [List.all_cons, Bool.and_eq_true] at h
    have hc : ¬(c = '<') := by simpa using h.1
    show escTagsGo ((t ++ rest).length + 1) (c :: (t ++ rest)) = _
    simp only [escTagsGo, if_neg hc, ih h.2]
    rfl

/-- **C10.** In `allowTags = true` mode, every character outside a tag
match — including `&`, `"` and `'` in plain text — passes through to
the output unchanged: a `<`-free prefix is emitted verbatim, and a
`<`-free string is returned whole. -/
theorem C10_tag_mode_passthrough (pre s : String)
    (h : pre.toList.all (fun c => !(c = '<')) = true) :
    escapeHTML (.str (pre ++ s)) true = pre ++ escapeHTML (.str s) true ∧
    escapeHTML (.str pre) true = pre := by
  have key : ∀ s2 : String, escapeTags (pre ++ s2) = pre ++ escapeTags s2 := by
    intro s2
    show escTagsGo (pre ++ s2).toList.length (pre ++ s2).toList = _
    have hd : (pre ++ s2).toList = pre.toList ++ s2.toList := String.data_append pre s2
    rw [hd, escTagsGo_append_no_lt pre.toList s2.toList h]
    rfl
  constructor
  · exact key s
  · calc escapeHTML (.str pre) true = escapeTags (pre ++ "") := by simp [escapeHTML]
      _ = pre ++ escapeTags "" := key ""
      _ = pre ++ "" := rfl
      _ = pre := by simp

/-- **C10**, witnessed: the prefix `a&"' ` (with an ampersand, a
quote and an apostrophe) passes through unchanged ahead of real tags. -/
theorem C10_witness :
    escapeHTML (.str ("a&\x22\x27 " ++ "<b>hi</b>")) true =
      "a&\x22\x27 " ++ escapeHTML (.str "<b>hi</b>") true :=
  (C10_tag_mode_passthrough "a&\x22\x27 " "<b>hi</b>" (by decide)).1

/-! ## C8 — dataset coercion

The claim's dispatch (`"true"`/`"false"`, then *fully numeric*, then
brace-wrapped JSON, else the raw string) differs from the code's
`!isNaN(value)` test: JavaScript numeric coercion also accepts the
empty string and whitespace-only strings (both coerce to `0`), radix
literals and `Infinity`, so e.g. `""` is coerced to the number `0`
instead of being kept as `""`. -/

/-- **C8** (counterexample).  The empty string is not `"true"`,
`"false"`, fully numeric, or brace-wrapped, so per the claim it should
map to itself — but the code maps it to the number `0`. -/
theorem C8_counterexample_empty_string :
    dataToObject (some [("k", "")]) = [("k", JSValue.num (JSNum.dec 0 0))] ∧
    dataToObject (some [("k", "")]) ≠ [("k", JSValue.str "")] := by
  refine ⟨rfl, fun hx => ?_⟩
  injection hx with hx1 _
  injection hx1 with _ hx2
  exact JSValue.noConfusion hx2

/-- **C8** (amended).  `dataToObject` is total (never throws, by
construction) and maps each string entry by: `"true"`/`"false"` to the
boolean; a string accepted by JavaScript numeric coercion — which
includes the empty string, coerced to `0` — to that number; a
brace-wrapped string to its parsed JSON value, keeping the raw string
when parsing fails; any other string to itself.  The spec's round-trip
example holds. -/
theorem C8_dataToObject_amended (k v : String) (rest : List (String × String)) :
    (dataToObject (some ((k, v) :: rest)) =
      (k, coerceValue v) :: dataToObject (some rest)) ∧
    (v = "true" → coerceValue v = .bool true) ∧
    (v = "false" → coerceValue v = .bool false) ∧
    (∀ n, v ≠ "true" → v ≠ "false" → jsStringToNumber v = some n →
      coerceValue v = .num n) ∧
    (jsStringToNumber "" = some (.dec 0 0) ∧ coerceValue "" = .num (.dec 0 0)) ∧
    (∀ j, v ≠ "true" → v ≠ "false" → jsStringToNumber v = none →
      v.data.head? = some openBraceChar → v.data.getLast? = some closeBraceChar →
      jsonParse v = some j → coerceValue v = j) ∧
    (v ≠ "true" → v ≠ "false" → jsStringToNumber v = none →
      v.data.head? = some openBraceChar → v.data.getLast? = some closeBraceChar →
      jsonParse v = none → coerceValue v = .str v) ∧
    (v ≠ "true" → v ≠ "false" → jsStringToNumber v = none →
      ¬(v.data.head? = some openBraceChar ∧ v.data.getLast? = some closeBraceChar) →
      coerceValue v = .str v) ∧
    (dataToObject (some [("a", "true"), ("b", "42"), ("c", "\x7b\x22x\x22:1\x7d"),
        ("d", "hello")]) =
      [("a", .bool true), ("b", .num (.dec 42 0)), ("c", .obj [("x", .num (.dec 1 0))]),
        ("d", .str "hello")]) := by
  refine ⟨rfl, ?_, ?_, ?_, ⟨rfl, rfl⟩, ?_, ?_, ?_, rfl⟩
  · intro h; simp [coerceValue, h]
  · intro h; subst h; simp [coerceValue]
  · intro n ht hf hn; simp [coerceValue, ht, hf, hn]
  · intro j ht hf hn hb1 hb2 hj; simp [coerceValue, ht, hf, hn, hb1, hb2, hj]
  · intro ht hf hn hb1 hb2 hj; simp [coerceValue, ht, hf, hn, hb1, hb2, hj]
  · intro ht hf hn hb
    rcases not_and_or.mp hb with h5 | h5 <;> simp [coerceValue, ht, hf, hn, h5]

/-- **C8** (amended), witnessed on the numeric and failed-JSON branches. -/
theorem C8_witness :
    coerceValue "42" = JSValue.num (JSNum.dec 42 0) ∧
    coerceValue "\x7boops\x7d" = JSValue.str "\x7boops\x7d" := by
  constructor
  · exact (C8_dataToObject_amended "k" "42" []).2.2.2.1 (JSNum.dec 42 0)
      (by decide) (by decide) rfl
  · exact (C8_dataToObject_amended "k" "\x7boops\x7d" []).2.2.2.2.2.2.1
      (by decide) (by decide) rfl rfl rfl rfl

/-! ## C9 — the random hash

`generateRandomHash` concatenates `substring(2, 6)` of two
`Math.random().toString(36)` renderings.  A rendering shorter than six
characters — produced whenever the random double has fewer than four
base-36 fractional digits, e.g. `(0.5).toString(36) = "0.i"` —
yields fewer than four characters, so the hash is *at most* eight
lowercase base-36 characters, not always exactly eight.  The
assigned-once part of the claim does hold: no lifecycle operation
touches `hash`. -/

/-- **C9** (counterexample).  With both random renderings equal to
`"0.i"` (the rendering of the double `0.5`), the constructed
instance's hash is `"ii"`, of length 2, not 8. -/
theorem C9_counterexample_short_hash :
    validRand36 "0.i" = true ∧
    (Target.construct [] none "0.i" "0.i").hash = "ii" ∧
    (Target.construct [] none "0.i" "0.i").hash.length = 2 ∧
    ¬((Target.construct [] none "0.i" "0.i").hash.length = 8) :=
  ⟨rfl, rfl, rfl, by decide⟩

/-- `substring(2, 6)` of a valid random rendering: lowercase base-36
characters, at most four of them, and exactly four when the rendering
has at least six characters. -/
theorem jsSubstring_2_6_parts (r : String) (h : validRand36 r = true) :
    (jsSubstring r 2 6).toList.all isBase36 = true ∧
    (jsSubstring r 2 6).toList.length ≤ 4 ∧
    (6 ≤ r.toList.length → (jsSubstring r 2 6).toList.length = 4) := by
  simp only [validRand36, Bool.or_eq_true, Bool.and_eq_true, decide_eq_true_eq] at h
  rcases h with h0 | ⟨⟨hpre, hne⟩, h36⟩
  · subst h0
    refine ⟨rfl, by decide, ?_⟩
    intro h6
    simp at h6
  · have hlen : 3 ≤ r.toList.length := by
      have hx : r.toList.drop 2 ≠ [] := by simpa using hne
      have h2 : 2 < r.length := by simpa [List.length_eq_zero] using hx
      have hsl0 : r.length = r.toList.length := rfl
      omega
    have hsl : r.length = r.toList.length := rfl
    refine ⟨?_, ?_, ?_⟩
    · rw [List.all_eq_true]
      intro c hc
      simp only [jsSubstring] at hc
      have hc2 : c ∈ r.toList.drop (min (min 2 r.toList.length) (min 6 r.toList.length)) :=
        List.take_subset _ _ hc
      have hm : min (min 2 r.toList.length) (min 6 r.toList.length) = 2 := by omega
      rw [hm] at hc2
      exact (List.all_eq_true.mp h36) c hc2
    · simp only [jsSubstring]
      simp [List.length_take, List.length_drop]
      omega
    · intro h6
      simp only [jsSubstring]
      simp [List.length_take, List.length_drop]
      omega

/-- **C9** (amended).  For valid random renderings the constructed
hash is a string of *at most* eight lowercase base-36 characters —
exactly eight whenever both renderings have at least six characters —
assigned once at construction; and no lifecycle operation (`update`,
`setState`, `unmount`, `destroy`, `initialize`) ever changes `hash`. -/
theorem C9_hash_amended (r1 r2 : String)
    (h1 : validRand36 r1 = true) (h2 : validRand36 r2 = true) :
    (∀ (props : List (String × JSValue)) (name : Option String),
      (Target.construct props name r1 r2).hash = generateRandomHash r1 r2) ∧
    (generateRandomHash r1 r2).length ≤ 8 ∧
    ((generateRandomHash r1 r2).toList.all isBase36 = true) ∧
    (6 ≤ r1.length → 6 ≤ r2.length → (generateRandomHash r1 r2).length = 8) ∧
    (∀ (render : Target → String) (t : Target) (doc : Doc)
        (patch : List (String × JSValue)) (found : List (List (String × String))),
      (Target.update render t doc).t.hash = t.hash ∧
      (Target.setState render t doc patch).t.hash = t.hash ∧
      (Target.unmount t doc).t.hash = t.hash ∧
      (Target.destroy t doc).t.hash = t.hash ∧
      (initTarget t found).1.hash = t.hash) := by
  obtain ⟨a1, a2, a3⟩ := jsSubstring_2_6_parts r1 h1
  obtain ⟨b1, b2, b3⟩ := jsSubstring_2_6_parts r2 h2
  have hd : (generateRandomHash r1 r2).toList =
      (jsSubstring r1 2 6).toList ++ (jsSubstring r2 2 6).toList := String.data_append _ _
  have hl : (generateRandomHash r1 r2).length =
      (jsSubstring r1 2 6).toList.length + (jsSubstring r2 2 6).toList.length := by
    have hx : (generateRandomHash r1 r2).length = (generateRandomHash r1 r2).toList.length := rfl
    rw [hx, hd, List.length_append]
  refine ⟨fun props name => rfl, by omega, ?_, ?_, ?_⟩
  · rw [hd]
    simp only [List.all_append, Bool.and_eq_true]
    exact ⟨a1, b1⟩
  · intro h6a h6b
    have e1 : r1.length = r1.toList.length := rfl
    have e2 : r2.length = r2.toList.length := rfl
    have c1 := a3 (by omega)
    have c2 := b3 (by omega)
    omega
  · intro render t doc patch found
    refine ⟨?_, ?_, ?_, ?_, ?_⟩
    · cases ht : t.container <;> cases hm : t.isMounted <;> simp [Target.update, ht, hm]
    · cases ht : t.container <;> cases hm : t.isMounted <;>
        simp [Target.setState, Target.update, ht, hm]
    · cases ht : t.container <;> simp [Target.unmount, ht]
    · have hu : (Target.unmount t doc).t.hash = t.hash := by
        cases ht : t.container <;> simp [Target.unmount, ht]
      cases he : (Target.unmount t doc).err <;> simp [Target.destroy, he, hu]
    · cases ht : t.container <;> simp [initTarget, ht]

/-- **C9** (amended), witnessed on two ordinary 8-character renderings. -/
theorem C9_witness :
    (Target.construct [] (some "app") "0.abcd12" "0.efgh34").hash =
      generateRandomHash "0.abcd12" "0.efgh34" ∧
    (generateRandomHash "0.abcd12" "0.efgh34").length = 8 :=
  ⟨(C9_hash_amended "0.abcd12" "0.efgh34" (by decide) (by decide)).1 [] (some "app"),
    (C9_hash_amended "0.abcd12" "0.efgh34" (by decide) (by decide)).2.2.2.1
      (by decide) (by decide)⟩

end TargetJS
